import Mathlib

/-!
Shallow embedding of the type-layout library in
`csvnpm/binary/types/{member,typeinfo,udt,typelib}.py`.

Python integers appearing here are all byte (or bit) sizes and offsets,
which are non-negative in every reachable use, so they are modelled as `Nat`.
Tuples of offsets are modelled as `List Nat`.  Python code that can raise an
exception is modelled with `Option`/`Except`: a `none`/`.error` result stands
for an uncaught exception.
-/

namespace CsvNpm

/-- Elements of a `Struct.layout` or `Union.members` sequence: the `Member`
subclasses `Field` and `Padding` from member.py, plus nested `Struct` and
`Union` objects (udt.py allows aggregates as layout members). -/
inductive UdtElem where
  | fieldE (name : String) (size : Nat) (typeName : String)
  | paddingE (size : Nat)
  | structE (name : Option String) (layout : List UdtElem)
  | unionE (name : Option String) (members : List UdtElem) (padding : Option Nat)

/-- The `TypeInfo` class hierarchy of typeinfo.py and udt.py as a closed sum:
`tinfo` is a plain (scalar) `TypeInfo`, the rest are its subclasses.
A `Padding` value on a `Union` is represented by its size. -/
inductive TypeInfo where
  | tinfo (name : Option String) (size : Nat)
  | array (nelements : Nat) (elementSize : Nat) (elementType : String)
  | pointer (targetTypeName : String)
  | functionPointer (name : String)
  | void
  | disappear
  | struct (name : Option String) (layout : List UdtElem)
  | union (name : Option String) (members : List UdtElem) (padding : Option Nat)

/-- Size contributed by an `Option`al `Padding` (udt.py `Union.__init__`:
`if self.padding is not None: self.size += self.padding.size`). -/
def padSize : Option Nat → Nat
  | none => 0
  | some s => s

mutual

/-- The stored `.size` attribute of a layout member.  For nested `Struct` and
`Union` objects the attribute is always the value computed at construction
(sum of member sizes, resp. max of member sizes plus padding), so it is
derived recursively here. -/
def UdtElem.size : UdtElem → Nat
  | .fieldE _ s _ => s
  | .paddingE s => s
  | .structE _ l => sizeSum l
  | .unionE _ m p => sizeMax m + padSize p

/-- `sum(lay.size for lay in layout)` (udt.py `Struct.__init__`). -/
def sizeSum : List UdtElem → Nat
  | [] => 0
  | e :: r => UdtElem.size e + sizeSum r

/-- `max(m.size for m in members)` with the `ValueError` branch for an empty
sequence mapped to 0, exactly as caught in udt.py `Union.__init__`. -/
def sizeMax : List UdtElem → Nat
  | [] => 0
  | e :: r => max (UdtElem.size e) (sizeMax r)

end

/-- The stored `.size` attribute of each `TypeInfo` variant:
scalar and `Padding`-free cases per typeinfo.py, `Struct`/`Union` per the
constructors in udt.py. -/
def TypeInfo.size : TypeInfo → Nat
  | .tinfo _ s => s
  | .array n es _ => es * n
  | .pointer _ => 8
  | .functionPointer _ => 8
  | .void => 0
  | .disappear => 0
  | .struct _ l => sizeSum l
  | .union _ m p => sizeMax m + padSize p

mutual

/-- Python `__eq__` on layout members.  `Field.__eq__` (member.py) compares
`name` and `type_name` only — it deliberately ignores `size`; `Padding`
compares sizes; `Struct`/`Union` compare name and members recursively.
Cross-class comparisons are `False`.  (For a few cross-class pairs the
source would raise `AttributeError` instead of returning `False`; no
operation modelled here compares such pairs.) -/
def UdtElem.pyEq : UdtElem → UdtElem → Bool
  | .fieldE n1 _ t1, .fieldE n2 _ t2 => n1 == n2 && t1 == t2
  | .paddingE s1, .paddingE s2 => s1 == s2
  | .structE n1 l1, .structE n2 l2 => n1 == n2 && pyEqList l1 l2
  | .unionE n1 m1 p1, .unionE n2 m2 p2 => n1 == n2 && pyEqList m1 m2 && p1 == p2
  | _, _ => false

/-- Tuple equality over layout members, as used by `Struct.__eq__`. -/
def pyEqList : List UdtElem → List UdtElem → Bool
  | [], [] => true
  | a :: as, b :: bs => UdtElem.pyEq a b && pyEqList as bs
  | _, _ => false

end

/-- Python `__eq__` on `TypeInfo` variants, per the `__eq__` methods in
typeinfo.py and udt.py: same class and equal class-specific fields. -/
def TypeInfo.pyEq : TypeInfo → TypeInfo → Bool
  | .tinfo n1 s1, .tinfo n2 s2 => n1 == n2 && s1 == s2
  | .array a1 b1 c1, .array a2 b2 c2 => a1 == a2 && b1 == b2 && c1 == c2
  | .pointer t1, .pointer t2 => t1 == t2
  | .functionPointer n1, .functionPointer n2 => n1 == n2
  | .void, .void => true
  | .disappear, .disappear => true
  | .struct n1 l1, .struct n2 l2 => n1 == n2 && pyEqList l1 l2
  | .union n1 m1 p1, .union n2 m2 p2 => n1 == n2 && pyEqList m1 m2 && p1 == p2
  | _, _ => false

/-- Python `range(a, b)` as a list. -/
def rangeFromTo (a b : Nat) : List Nat :=
  List.range' a (b - a)

/-- `isinstance(m, Padding)` test used by `Struct.has_padding`. -/
def UdtElem.isPadding : UdtElem → Bool
  | .paddingE _ => true
  | _ => false

/-- `isinstance(m, Field)` test used by the `Struct` offset walks. -/
def UdtElem.isField : UdtElem → Bool
  | .fieldE _ _ _ => true
  | _ => false

/-- `Struct.has_padding` (udt.py): any layout member is a `Padding`. -/
def hasPaddingL (l : List UdtElem) : Bool :=
  l.any UdtElem.isPadding

/-- The accumulation loop of `Struct.accessible_offsets` (udt.py): walk the
layout with a cursor, collecting `range(current_offset, next_offset)` for
`Field` members only (nested aggregates and padding are skipped). -/
def accAux (cur : Nat) : List UdtElem → List Nat
  | [] => []
  | e :: r =>
    match e with
    | .fieldE _ s _ => rangeFromTo cur (cur + s) ++ accAux (cur + s) r
    | _ => accAux (cur + e.size) r

/-- The accumulation loop of `Struct.inaccessible_offsets` (udt.py):
collect offset ranges of `Padding` members only. -/
def inaccAux (cur : Nat) : List UdtElem → List Nat
  | [] => []
  | e :: r =>
    match e with
    | .paddingE s => rangeFromTo cur (cur + s) ++ inaccAux (cur + s) r
    | _ => inaccAux (cur + e.size) r

/-- The accumulation loop of `Struct.start_offsets` (udt.py): record the
cursor at each `Field` member. -/
def startAux (cur : Nat) : List UdtElem → List Nat
  | [] => []
  | e :: r =>
    match e with
    | .fieldE _ s _ => cur :: startAux (cur + s) r
    | _ => startAux (cur + e.size) r

/-- `accessible_offsets` per variant.  Non-aggregate variants inherit
`TypeInfo.accessible_offsets`, which is `tuple(range(self.size))`.
`Union.accessible_offsets` evaluates `max(m.size for m in self.members)`,
which raises `ValueError` on a memberless union: that exception is `none`. -/
def TypeInfo.accessible : TypeInfo → Option (List Nat)
  | .tinfo _ s => some (List.range s)
  | .array n es _ => some (List.range (es * n))
  | .pointer _ => some (List.range 8)
  | .functionPointer _ => some (List.range 8)
  | .void => some (List.range 0)
  | .disappear => some (List.range 0)
  | .struct _ l => some (accAux 0 l)
  | .union _ m _ => if m.isEmpty then none else some (List.range (sizeMax m))

/-- `inaccessible_offsets` per variant.  The base class returns the empty
tuple.  `Struct` returns the empty tuple when it has no padding, else walks
the layout.  `Union` returns the empty tuple when it has no padding, else
`range(max(member sizes), self.size)`, raising (`none`) on a memberless
union; its size is `max + padding`. -/
def TypeInfo.inaccessible : TypeInfo → Option (List Nat)
  | .struct _ l => some (if hasPaddingL l then inaccAux 0 l else [])
  | .union _ m p =>
    match p with
    | none => some []
    | some ps => if m.isEmpty then none else some (rangeFromTo (sizeMax m) (sizeMax m + ps))
  | _ => some []

/-- `start_offsets` per variant.  The base class returns `(0,)`.
`Array.start_offsets` is `range(self.size)[::element_size]`, i.e. the
multiples of `element_size` below `size`; slicing with step 0 raises
`ValueError` (`none`).  `Struct` walks its layout; `Union` returns `(0,)`. -/
def TypeInfo.startOffsets : TypeInfo → Option (List Nat)
  | .tinfo _ _ => some [0]
  | .array n es _ =>
    if es = 0 then none
    else some ((List.range (es * n)).filter (fun x => decide (x % es = 0)))
  | .pointer _ => some [0]
  | .functionPointer _ => some [0]
  | .void => some [0]
  | .disappear => some [0]
  | .struct _ l => some (startAux 0 l)
  | .union _ _ _ => some [0]

/-- The inner `displace` helper of `TypeInfo.replacable_with`
(typeinfo.py): add the captured `cur_offset` to every offset. -/
def displace (curOffset : Nat) (offsets : List Nat) : List Nat :=
  offsets.map (fun off => off + curOffset)

/-- The loop of `TypeInfo.replacable_with`: concatenate the displaced
start/accessible/inaccessible offsets of each element of `others`.
`curOffset` is the loop's `cur_offset` variable, which the source
initialises to 0 before the loop and never updates. -/
def gatherOffsets (curOffset : Nat) : List TypeInfo → Option (List Nat × List Nat × List Nat)
  | [] => some ([], [], [])
  | o :: r =>
    match o.startOffsets, o.accessible, o.inaccessible, gatherOffsets curOffset r with
    | some st, some ac, some ina, some (rs, ra, ri) =>
      some (displace curOffset st ++ rs, displace curOffset ac ++ ra, displace curOffset ina ++ ri)
    | _, _, _, _ => none

/-- `TypeInfo.replacable_with(others)` (typeinfo.py), with the
`FunctionPointer` override returning `False` unconditionally.  The final
Python expression short-circuits left to right, so offset methods of `self`
are only evaluated while the previous comparisons succeed. -/
def TypeInfo.replacableWith (self : TypeInfo) (others : List TypeInfo) : Option Bool :=
  match self with
  | .functionPointer _ => some false
  | _ =>
    if TypeInfo.size self ≠ (others.map TypeInfo.size).sum then some false
    else
      -- cur_offset is initialised to 0 in the source and never changed
      -- inside the loop body, so every displacement is by 0.
      let curOffset := 0
      match gatherOffsets curOffset others with
      | none => none
      | some (oStart, oAcc, oInacc) =>
        match TypeInfo.startOffsets self with
        | none => none
        | some sStart =>
          if sStart.all (fun x => oStart.contains x) = false then some false
          else
            match TypeInfo.accessible self with
            | none => none
            | some sAcc =>
              if sAcc ≠ oAcc then some false
              else
                match TypeInfo.inaccessible self with
                | none => none
                | some sInacc => some (decide (sInacc = oInacc))


/-- An `Entry` (typelib.py): a `(frequency, typeinfo)` named tuple. -/
structure Entry where
  frequency : Nat
  typeinfo : TypeInfo

/-- An `EntryList`'s contents (typelib.py).  The `ValueSortedDict` is keyed
by `typeinfo` (Python `__eq__`); it is modelled as a keyed list of entries.
The frequency-sorted iteration order of `ValueSortedDict` is not modelled:
no operation proved about below depends on the order of entries within a
bucket. -/
abbrev EntryList := List Entry

/-- Key lookup in an `EntryList`, i.e. `self._data.get(item)` with the
dictionary keyed by Python equality of `TypeInfo`. -/
def EntryList.getEntry (es : EntryList) (item : TypeInfo) : Option Entry :=
  es.find? (fun e => e.typeinfo.pyEq item)

/-- Key update `self._data[item] = entry`: replace the entry stored under
an equal key, or insert a new key. -/
def EntryList.setEntry (es : EntryList) (item : TypeInfo) (entry : Entry) : EntryList :=
  match es with
  | [] => [entry]
  | e :: r => if e.typeinfo.pyEq item then entry :: r else e :: EntryList.setEntry r item entry

/-- `EntryList.add_n(item, n)` (typelib.py): take the stored entry (or a
fresh `Entry(0, item)`), increment its frequency by `n`, store it back, and
return `True` — the source returns the constant `True` (its own comment
reads `# should return exists`). -/
def EntryList.addN (es : EntryList) (item : TypeInfo) (n : Nat) : Bool × EntryList :=
  let entry :=
    match EntryList.getEntry es item with
    | some e => { e with frequency := e.frequency + n }
    | none => { frequency := 0 + n, typeinfo := item }
  (true, EntryList.setEntry es item entry)

/-- `EntryList.add(item)` is `add_n(item, 1)`. -/
def EntryList.add (es : EntryList) (item : TypeInfo) : Bool × EntryList :=
  EntryList.addN es item 1

/-- `EntryList.add_entry(entry)` is `add_n(entry.typeinfo, entry.frequency)`. -/
def EntryList.addEntry (es : EntryList) (entry : Entry) : Bool × EntryList :=
  EntryList.addN es entry.typeinfo entry.frequency

/-- `EntryList.add_all(other)`: fold `add_entry` over the other list. -/
def EntryList.addAll (es : EntryList) : List Entry → EntryList
  | [] => es
  | e :: r => EntryList.addAll (EntryList.addEntry es e).2 r

/-- `EntryList.get_freq(item)` (typelib.py): when the item is present the
source evaluates `self._data[item].freqency` — a misspelling of
`frequency` — so the attribute access raises `AttributeError`, modelled as
`.error ()`; when absent it returns `None`. -/
def EntryList.getFreq (es : EntryList) (item : TypeInfo) : Except Unit (Option Nat) :=
  match EntryList.getEntry es item with
  | some _ => .error ()
  | none => .ok none

/-- `EntryList.prune(freq)`: rebuild keeping entries with
`frequency >= freq` (`_initialize_data`). -/
def EntryList.pruneL (k : Nat) (es : EntryList) : EntryList :=
  es.filter (fun e => decide (k ≤ e.frequency))

/-- A `TypeLib`'s `_data` (typelib.py): a mapping from byte size to
`EntryList`, modelled as a keyed list in dictionary insertion order. -/
abbrev TypeLib := List (Nat × EntryList)

/-- Bucket lookup `size in self` / `self[size]`. -/
def TypeLib.lookupBucket (lib : TypeLib) (sz : Nat) : Option EntryList :=
  match lib with
  | [] => none
  | (k, es) :: r => if k = sz then some es else TypeLib.lookupBucket r sz

/-- Replace the bucket stored under `sz` (the key is known to exist). -/
def TypeLib.setBucket (lib : TypeLib) (sz : Nat) (es : EntryList) : TypeLib :=
  match lib with
  | [] => []
  | (k, old) :: r => if k = sz then (k, es) :: r else (k, old) :: TypeLib.setBucket r sz es

/-- The body of `TypeLib.fix` for one entry: ensure a bucket for `nsize`
exists (`add_entry_list(nsize, EntryList())` inserts an empty bucket at the
end, in dictionary insertion order) and `add_entry` the entry into it. -/
def TypeLib.addEntryAt (lib : TypeLib) (sz : Nat) (e : Entry) : TypeLib :=
  match TypeLib.lookupBucket lib sz with
  | some es => TypeLib.setBucket lib sz (EntryList.addEntry es e).2
  | none => lib ++ [(sz, (EntryList.addEntry [] e).2)]

/-- `TypeLib.prune(freq)` (typelib.py): first prune every bucket in place;
then iterate `self._data.items()` and `pop` every bucket left empty.
Popping a key while iterating the dictionary raises `RuntimeError`
(dictionary changed size during iteration), so the call only returns
normally when no bucket is empty after the first phase; an empty bucket
makes the whole call raise, modelled as `none`. -/
def TypeLib.prune (k : Nat) (lib : TypeLib) : Option TypeLib :=
  let pruned : TypeLib := lib.map (fun b => (b.1, EntryList.pruneL k b.2))
  if pruned.any (fun b => b.2.isEmpty) then none else some pruned

mutual

/-- `fix_bit` applied to one non-`Field` layout member: a nested `Struct`
is repaired recursively (`succeed &= cls.fix_bit(m)`, with the nested call
starting from its own fresh `succeed = True`); `Padding` and `Union`
members are skipped by the `isinstance` chain, which leaves them unchanged
and contributes `True` to the flag. -/
def fixBitElem : UdtElem → Bool × UdtElem
  | .fieldE n s t => (true, .fieldE n s t)
  | .paddingE s => (true, .paddingE s)
  | .unionE n m pd => (true, .unionE n m pd)
  | .structE n l =>
    let q := fixBitLayout true l
    (q.1, .structE n q.2)

/-- `TypeLibABC.fix_bit(typ)` (typelib.py), acting on the layout of a
`Struct`.  The loop divides each `Field` size by 8, breaking out (leaving
the failing field and the rest of the layout untouched) as soon as
`succeed` becomes false at a `Field`; non-`Field` members go through
`fixBitElem`, whose flag is folded into `succeed` without breaking (the
fold is the identity for the skipped `Padding`/`Union` members, exactly as
in the source's `isinstance` chain).  Returns the final flag and the
mutated layout; the struct's `size` attribute is then the sum of the
mutated member sizes. -/
def fixBitLayout : Bool → List UdtElem → Bool × List UdtElem
  | succeed, [] => (succeed, [])
  | succeed, e :: r =>
    match e with
    | .fieldE n s t =>
      if (succeed && decide (s % 8 = 0)) = false then (false, .fieldE n s t :: r)
      else
        let p := fixBitLayout true r
        (p.1, .fieldE n (s / 8) t :: p.2)
    | _ =>
      let q := fixBitElem e
      let p := fixBitLayout (succeed && q.1) r
      (p.1, q.2 :: p.2)

end

/-- One entry of the `TypeLib.fix` loop: a `Struct` entry is repaired by
`fix_bit` (mutating the shared `typeinfo` object) and re-bucketed under its
recomputed size; any other entry keeps the original bucket key.  Returns
(`succeed`, new bucket key, the entry as it exists after the call). -/
def TypeLib.fixEntry (bucketSize : Nat) (e : Entry) : Bool × Nat × Entry :=
  match e.typeinfo with
  | .struct n l =>
    let p := fixBitLayout true l
    (p.1, sizeSum p.2, { frequency := e.frequency, typeinfo := .struct n p.2 })
  | _ => (true, bucketSize, e)

/-- The inner loop of `TypeLib.fix` over one bucket: add each entry whose
repair succeeded to the new library, and return the bucket's entries as
they exist after the call (mutated in place by `fix_bit`). -/
def TypeLib.fixBucket (newLib : TypeLib) (bucketSize : Nat) : EntryList → TypeLib × EntryList
  | [] => (newLib, [])
  | e :: r =>
    let q := TypeLib.fixEntry bucketSize e
    let newLib2 := if q.1 then TypeLib.addEntryAt newLib q.2.1 q.2.2 else newLib
    let p := TypeLib.fixBucket newLib2 bucketSize r
    (p.1, q.2.2 :: p.2)

/-- The outer loop of `TypeLib.fix` over all buckets. -/
def TypeLib.fixGo (newLib : TypeLib) : TypeLib → TypeLib × TypeLib
  | [] => (newLib, [])
  | (sz, es) :: r =>
    let p := TypeLib.fixBucket newLib sz es
    let q := TypeLib.fixGo p.1 r
    (q.1, (sz, p.2) :: q.2)

/-- `TypeLib.fix()` (typelib.py).  The first component is the returned new
library; the second component is the state of the source library's buckets
after the call (`fix_bit` mutates the `Struct` objects the source library
still holds, so the source is not left unchanged). -/
def TypeLib.fix (lib : TypeLib) : TypeLib × TypeLib :=
  TypeLib.fixGo [] lib

/-- The characterisation of what `fix` leaves behind in the source library:
every entry replaced by its `fix_bit`-mutated form. -/
def TypeLib.mutatedBy (lib : TypeLib) : TypeLib :=
  lib.map (fun b => (b.1, b.2.map (fun e => (TypeLib.fixEntry b.1 e).2.2)))

/-- `make_cached_replacement_dict` contributions of one bucket: pair each
entry's `(accessible_offsets(), start_offsets())` shape with its type.
A raising offset computation (memberless union) aborts the build. -/
def cacheOfEntries : EntryList → Option (List ((List Nat × List Nat) × TypeInfo))
  | [] => some []
  | e :: r =>
    match e.typeinfo.accessible, e.typeinfo.startOffsets, cacheOfEntries r with
    | some a, some s, some rest => some (((a, s), e.typeinfo) :: rest)
    | _, _, _ => none

/-- `make_cached_replacement_dict` (typelib.py): index every entry of every
bucket of size at most 1024 by its offset shape.  The Python value is a
dict of sets; it is modelled as the list of (shape, type) pairs, looked up
by filtering, which has the same membership semantics. -/
def cachePairs : TypeLib → Option (List ((List Nat × List Nat) × TypeInfo))
  | [] => some []
  | (sz, es) :: r =>
    if 1024 < sz then cachePairs r
    else
      match cacheOfEntries es, cachePairs r with
      | some c, some rest => some (c ++ rest)
      | _, _ => none

/-- Set lookup in the modelled replacement cache. -/
def cacheLookup (pairs : List ((List Nat × List Nat) × TypeInfo))
    (key : List Nat × List Nat) : List TypeInfo :=
  (pairs.filter (fun p => p.1 == key)).map (fun p => p.2)

/-- The bucket keys `self.keys()`, in dictionary insertion order. -/
def TypeLib.keys (lib : TypeLib) : List Nat :=
  lib.map (fun b => b.1)

/-- `TypeLibABC.get_next_replacements(accessible, start_offsets)`
(typelib.py).  `none` models the `IndexError` raised by `accessible[0]` or
`start_offsets[0]` on an empty tuple, or a raising cache build.  Candidate
sizes are the bucket keys of size in `(0, length]`; for each legal size the
consumed prefix is shifted to zero and looked up in the cache, and the
candidate `(type set, remaining accessible, remaining starts)` is recorded
(the Python code appends unconditionally once the legality checks pass). -/
def TypeLib.getNextReplacements (lib : TypeLib) (accessible startOffsets : List Nat) :
    Option (List (List TypeInfo × List Nat × List Nat)) :=
  match cachePairs lib with
  | none => none
  | some cache =>
    match accessible, startOffsets with
    | [], _ => none
    | _ :: _, [] => none
    | a0 :: arest, s0 :: _ =>
      if a0 ≠ s0 then some []
      else
        let start := a0
        let length := (a0 :: arest).getLast (List.cons_ne_nil a0 arest) - start + 1
        some (((TypeLib.keys lib).filter (fun s => decide (s ≤ length) && decide (s ≠ 0))).filterMap
          (fun size =>
            let restA := accessible.filter (fun x => decide (size + start ≤ x))
            let restS := startOffsets.filter (fun x => decide (size + start ≤ x))
            if !restS.isEmpty && (restA.isEmpty || restS.head? != restA.head?) then none
            else if restS.isEmpty && !restA.isEmpty then none
            else
              let shiftA := (accessible.filter (fun x => decide (x < size + start))).map
                (fun x => x - start)
              let shiftS := (startOffsets.filter (fun x => decide (x < size + start))).map
                (fun x => x - start)
              some (cacheLookup cache (shiftA, shiftS), restA, restS)))

/-- JSON values, as produced by `json.dumps`/consumed by `json.loads`.
All numbers occurring in the encodings here are non-negative integers. -/
inductive Json where
  | null
  | num (n : Nat)
  | str (s : String)
  | arr (elems : List Json)
  | obj (fields : List (String × Json))

/-- Encoding of an optional name: `None` becomes JSON `null`. -/
def encOptStr : Option String → Json
  | none => Json.null
  | some s => Json.str s

mutual

/-- `_to_json` of a layout member: `Field` and `Padding` per member.py,
nested `Struct` and `Union` per udt.py.  The nested `Padding` object held
by a `Union` is serialised through `_Encoder.default`, which calls its
`_to_json`.  Note `Union._to_json` emits discriminant `T = 8`. -/
def UdtElem.toJson : UdtElem → Json
  | .fieldE n s t =>
    Json.obj [("T", Json.num 4), ("n", Json.str n), ("t", Json.str t), ("s", Json.num s)]
  | .paddingE s => Json.obj [("T", Json.num 5), ("s", Json.num s)]
  | .structE n l => Json.obj [("T", Json.num 6), ("n", encOptStr n), ("l", Json.arr (jsonList l))]
  | .unionE n m p =>
    Json.obj [("T", Json.num 8), ("n", encOptStr n), ("m", Json.arr (jsonList m)),
      ("p", encPad p)]

/-- Encode a member list. -/
def jsonList : List UdtElem → List Json
  | [] => []
  | e :: r => UdtElem.toJson e :: jsonList r

/-- Encode the optional `Padding` of a `Union` (`null` or its `_to_json`). -/
def encPad : Option Nat → Json
  | none => Json.null
  | some s => Json.obj [("T", Json.num 5), ("s", Json.num s)]

end

/-- `_to_json` of each `TypeInfo` variant, with the discriminants the
source actually emits: scalar 1, `Array` 2, `Pointer` 3, `Struct` 6,
`Void` 8, `FunctionPointer` 9, `Disappear` 10 — and `Union` 8 (udt.py
line 70), although the codec's `_classes` table registers `Union` at 7 and
`Void` at 8. -/
def TypeInfo.toJson : TypeInfo → Json
  | .tinfo n s => Json.obj [("T", Json.num 1), ("n", encOptStr n), ("s", Json.num s)]
  | .array n es t =>
    Json.obj [("T", Json.num 2), ("n", Json.num n), ("s", Json.num es), ("t", Json.str t)]
  | .pointer t => Json.obj [("T", Json.num 3), ("t", Json.str t)]
  | .functionPointer n => Json.obj [("T", Json.num 9), ("n", Json.str n)]
  | .void => Json.obj [("T", Json.num 8)]
  | .disappear => Json.obj [("T", Json.num 10)]
  | .struct n l => Json.obj [("T", Json.num 6), ("n", encOptStr n), ("l", Json.arr (jsonList l))]
  | .union n m p =>
    Json.obj [("T", Json.num 8), ("n", encOptStr n), ("m", Json.arr (jsonList m)),
      ("p", encPad p)]

/-- The universe of values `TypeLibCodec.decode`'s `object_hook` can
produce: plain JSON scalars and arrays, plus the Python objects built by
the `_from_json` dispatch (members, `TypeInfo` variants, libraries). -/
inductive Dec where
  | null
  | num (n : Nat)
  | str (s : String)
  | arr (elems : List Dec)
  | mem (e : UdtElem)
  | typ (t : TypeInfo)
  | lib (l : TypeLib)

/-- Dictionary key lookup on a decoded JSON object (`d["k"]`); `none` is a
`KeyError`.  Encoded objects never repeat a key. -/
def lookupField (fs : List (String × Dec)) (k : String) : Option Dec :=
  (fs.find? (fun p => p.1 == k)).map (fun p => p.2)

/-- A decoded `d["n"]` that must be a name: `null` or a string. -/
def decOptStr : Dec → Option (Option String)
  | .null => some none
  | .str s => some (some s)
  | _ => none

/-- Convert a decoded object into a `Struct`/`Union` member, as happens
when `Struct._from_json` receives `d["l"]` (already decoded bottom-up by
the `object_hook`). -/
def toElem : Dec → Option UdtElem
  | .mem e => some e
  | .typ (.struct n l) => some (.structE n l)
  | .typ (.union n m p) => some (.unionE n m p)
  | _ => none

/-- Convert a decoded member list. -/
def toElems : List Dec → Option (List UdtElem)
  | [] => some []
  | d :: r =>
    match toElem d, toElems r with
    | some e, some es => some (e :: es)
    | _, _ => none

/-- The decoded `d["p"]` of a `Union`: `null` or a `Padding` object. -/
def toPad : Dec → Option (Option Nat)
  | .null => some none
  | .mem (.paddingE s) => some (some s)
  | _ => none

/-- One `[frequency, typeinfo]` pair of a serialised `EntryList`. -/
def toEntries : List Dec → Option (List Entry)
  | [] => some []
  | .arr [.num f, .typ t] :: r =>
    match toEntries r with
    | some es => some ({ frequency := f, typeinfo := t } :: es)
    | none => none
  | _ => none

/-- `TypeLibABC._from_json`: every key other than `"T"` is parsed as an
integer bucket size (`int(key)`; a non-numeric key raises, `none`) mapping
to a list of `[frequency, typeinfo]` pairs. -/
def toLibBuckets : List (String × Dec) → Option TypeLib
  | [] => some []
  | (k, v) :: r =>
    if k == "T" then toLibBuckets r
    else
      match k.toNat?, v, toLibBuckets r with
      | some sz, .arr l, some rest =>
        match toEntries l with
        | some es => some ((sz, es) :: rest)
        | none => none
      | _, _, _ => none

/-- `TypeLibCodec.read_metadata` (typelib.py): dispatch on `d["T"]` through
the `_classes` table (`"E"`: `EntryList`, 0: the registered library class,
1: `TypeInfo`, 2: `Array`, 3: `Pointer`, 4: `Field`, 5: `Padding`,
6: `Struct`, 7: `Union`, 8: `Void`, 9: `FunctionPointer`, 10: `Disappear`)
and call that class's `_from_json`.  A missing `"T"` key or an unregistered
discriminant raises (`none`); tag `"E"` raises `AttributeError` because
`EntryList` defines no `_from_json`.  `Void._from_json` and
`Disappear._from_json` ignore the dictionary. -/
def readMetadata (fs : List (String × Dec)) : Option Dec :=
  match lookupField fs "T" with
  | some (.num 0) =>
    match toLibBuckets fs with
    | some l => some (.lib l)
    | none => none
  | some (.num 1) =>
    match lookupField fs "n", lookupField fs "s" with
    | some nd, some (.num s) =>
      match decOptStr nd with
      | some nm => some (.typ (.tinfo nm s))
      | none => none
    | _, _ => none
  | some (.num 2) =>
    match lookupField fs "n", lookupField fs "s", lookupField fs "t" with
    | some (.num n), some (.num s), some (.str t) => some (.typ (.array n s t))
    | _, _, _ => none
  | some (.num 3) =>
    match lookupField fs "t" with
    | some (.str t) => some (.typ (.pointer t))
    | _ => none
  | some (.num 4) =>
    match lookupField fs "n", lookupField fs "t", lookupField fs "s" with
    | some (.str n), some (.str t), some (.num s) => some (.mem (.fieldE n s t))
    | _, _, _ => none
  | some (.num 5) =>
    match lookupField fs "s" with
    | some (.num s) => some (.mem (.paddingE s))
    | _ => none
  | some (.num 6) =>
    match lookupField fs "n", lookupField fs "l" with
    | some nd, some (.arr l) =>
      match decOptStr nd, toElems l with
      | some nm, some es => some (.typ (.struct nm es))
      | _, _ => none
    | _, _ => none
  | some (.num 7) =>
    match lookupField fs "n", lookupField fs "m", lookupField fs "p" with
    | some nd, some (.arr m), some pd =>
      match decOptStr nd, toElems m, toPad pd with
      | some nm, some ms, some p => some (.typ (.union nm ms p))
      | _, _, _ => none
    | _, _, _ => none
  | some (.num 8) => some (.typ .void)
  | some (.num 9) =>
    match lookupField fs "n" with
    | some (.str n) => some (.typ (.functionPointer n))
    | _ => none
  | some (.num 10) => some (.typ .disappear)
  | _ => none

mutual

/-- `TypeLibCodec.decode` on an already-parsed JSON tree: `json.loads`
applies `read_metadata` as `object_hook` to every object, innermost first,
so each object's values are decoded before the dispatch runs on it. -/
def decodeVal : Json → Option Dec
  | .null => some .null
  | .num n => some (.num n)
  | .str s => some (.str s)
  | .arr l =>
    match decodeList l with
    | some ds => some (.arr ds)
    | none => none
  | .obj fs =>
    match decodeFields fs with
    | some dfs => readMetadata dfs
    | none => none

/-- Decode the elements of a JSON array. -/
def decodeList : List Json → Option (List Dec)
  | [] => some []
  | j :: r =>
    match decodeVal j, decodeList r with
    | some d, some ds => some (d :: ds)
    | _, _ => none

/-- Decode the values of a JSON object. -/
def decodeFields : List (String × Json) → Option (List (String × Dec))
  | [] => some []
  | (k, v) :: r =>
    match decodeVal v, decodeFields r with
    | some d, some ds => some ((k, d) :: ds)
    | _, _ => none

end


/-- The values on which the offset-algebra coverage contract can hold:
`Struct` layouts made of `Field`/`Padding` members only (a nested `Struct`
or `Union` member is skipped by both offset walks while still counting
towards `size`), and `Union`s with at least one member (a memberless union
raises).  All other variants are unrestricted. -/
def flatOk : TypeInfo → Bool
  | .struct _ l => l.all (fun e => e.isField || e.isPadding)
  | .union _ m _ => !m.isEmpty
  | _ => true

/-!  Theorems.  -/

/-- `inaccAux` only collects `Padding` ranges, so a layout without padding
contributes nothing. -/
theorem inaccAux_eq_nil (l : List UdtElem) (h : hasPaddingL l = false) (c : Nat) :
    inaccAux c l = [] := by
  induction l generalizing c with
  | nil => rfl
  | cons e r ih =>
    simp only [hasPaddingL, List.any_cons, Bool.or_eq_false_iff] at h
    cases e with
    | fieldE n s t => exact ih (by simpa [hasPaddingL] using h.2) (c + s)
    | paddingE s => simp [UdtElem.isPadding] at h
    | structE n l2 => exact ih (by simpa [hasPaddingL] using h.2) _
    | unionE n m p => exact ih (by simpa [hasPaddingL] using h.2) _

/-- For a flat layout the accessible and inaccessible walks together cover
the struct's byte range starting at the cursor, up to permutation. -/
theorem accAux_inaccAux_perm (l : List UdtElem)
    (h : l.all (fun e => e.isField || e.isPadding) = true) :
    ∀ c : Nat, (accAux c l ++ inaccAux c l).Perm (List.range' c (sizeSum l)) := by
  induction l with
  | nil => intro c; simp [accAux, inaccAux, sizeSum]
  | cons e r ih =>
    simp only [List.all_cons, Bool.and_eq_true] at h
    intro c
    cases e with
    | fieldE n s t =>
      have hr := ih h.2 (c + s)
      simp only [accAux, inaccAux, sizeSum, rangeFromTo, Nat.add_sub_cancel_left,
        UdtElem.size]
      rw [Nat.add_comm s (sizeSum r), ← List.range'_append_1, List.append_assoc]
      exact hr.append_left _
    | paddingE s =>
      have hr := ih h.2 (c + s)
      simp only [accAux, inaccAux, sizeSum, rangeFromTo, Nat.add_sub_cancel_left,
        UdtElem.size]
      rw [Nat.add_comm s (sizeSum r), ← List.range'_append_1]
      have h1 : (accAux (c + s) r ++ (List.range' c s ++ inaccAux (c + s) r)).Perm
          (List.range' c s ++ (accAux (c + s) r ++ inaccAux (c + s) r)) := by
        rw [← List.append_assoc, ← List.append_assoc]
        exact List.perm_append_comm.append_right _
      exact h1.trans (hr.append_left _)
    | structE n l2 => simp [UdtElem.isField, UdtElem.isPadding] at h
    | unionE n m p => simp [UdtElem.isField, UdtElem.isPadding] at h

/-- A pair of lists whose concatenation is a permutation of a duplicate-free
range is disjoint. -/
theorem cover_disjoint (a i : List Nat) (n : Nat)
    (h : (a ++ i).Perm (List.range n)) : List.Disjoint a i :=
  List.disjoint_of_nodup_append (h.symm.nodup (List.nodup_range n))

/-- C1: `replacable_with` on a Struct of two consecutive 4-byte int fields.
The source initialises `cur_offset = 0` and never advances it inside the
loop, so the offsets of `others` are concatenated without displacement and
the pair of 4-byte scalars is rejected (the claim expects acceptance); the
single 8-byte scalar is rejected, as the claim also states. -/
theorem c1_replacable_with_eval :
    TypeInfo.replacableWith (.struct (some "s") [.fieldE "a" 4 "int", .fieldE "b" 4 "int"])
        [.tinfo (some "int") 4, .tinfo (some "int") 4] = some false
    ∧ TypeInfo.replacableWith (.struct (some "s") [.fieldE "a" 4 "int", .fieldE "b" 4 "int"])
        [.tinfo (some "long") 8] = some false :=
  ⟨rfl, rfl⟩

/-- C2: the encode/decode round trip fails on `Union`: `Union._to_json`
emits discriminant `T = 8` while the codec's `_classes` table maps 8 to
`Void`, so decoding the encoding of a union produces `Void()`, not a value
equal to the union. -/
theorem c2_union_roundtrip_eval :
    decodeVal (TypeInfo.toJson (.union (some "u") [.fieldE "f" 4 "int"] none)) =
      some (.typ .void)
    ∧ (TypeInfo.union (some "u") [.fieldE "f" 4 "int"] none) ≠ .void :=
  ⟨rfl, fun heq => TypeInfo.noConfusion heq⟩

/-- C3 counterexample: a Struct whose only layout member is a nested Struct
(one 4-byte field).  Both offset walks skip the nested member (it is
neither a `Field` nor a `Padding`), so accessible and inaccessible offsets
are both empty while the size is 4 — their union is not `[0, 4)`. -/
theorem c3_counterexample :
    TypeInfo.accessible (.struct none [.structE none [.fieldE "f" 4 "int"]]) = some []
    ∧ TypeInfo.inaccessible (.struct none [.structE none [.fieldE "f" 4 "int"]]) = some []
    ∧ TypeInfo.size (.struct none [.structE none [.fieldE "f" 4 "int"]]) = 4
    ∧ ¬ (([] ++ [] : List Nat).Perm (List.range 4)) :=
  ⟨rfl, rfl, rfl, by decide⟩

/-- C3 (amended): for every variant whose Struct layouts contain only
`Field`/`Padding` members and whose Unions have at least one member, the
accessible and inaccessible offsets together are a permutation of
`range(size)` and are disjoint. -/
theorem c3_offsets_cover (t : TypeInfo) (h : flatOk t = true) :
    ∃ a i, TypeInfo.accessible t = some a ∧ TypeInfo.inaccessible t = some i ∧
      (a ++ i).Perm (List.range (TypeInfo.size t)) ∧ List.Disjoint a i := by
  have key : ∃ a i, TypeInfo.accessible t = some a ∧ TypeInfo.inaccessible t = some i ∧
      (a ++ i).Perm (List.range (TypeInfo.size t)) := by
    cases t with
    | tinfo nm s =>
      exact ⟨List.range s, [], rfl, rfl, by simp [TypeInfo.size]⟩
    | array n es t =>
      exact ⟨List.range (es * n), [], rfl, rfl, by simp [TypeInfo.size]⟩
    | pointer t =>
      exact ⟨List.range 8, [], rfl, rfl, by simp [TypeInfo.size]⟩
    | functionPointer n =>
      exact ⟨List.range 8, [], rfl, rfl, by simp [TypeInfo.size]⟩
    | void =>
      exact ⟨List.range 0, [], rfl, rfl, by simp [TypeInfo.size]⟩
    | disappear =>
      exact ⟨List.range 0, [], rfl, rfl, by simp [TypeInfo.size]⟩
    | struct nm l =>
      have hl : l.all (fun e => e.isField || e.isPadding) = true := by
        simpa [flatOk] using h
      refine ⟨accAux 0 l, if hasPaddingL l then inaccAux 0 l else [], rfl, rfl, ?_⟩
      have hif : (if hasPaddingL l then inaccAux 0 l else []) = inaccAux 0 l := by
        cases hp : hasPaddingL l with
        | false => simp [inaccAux_eq_nil l hp 0]
        | true => simp
      rw [hif, TypeInfo.size, List.range_eq_range']
      exact accAux_inaccAux_perm l hl 0
    | union nm m p =>
      have hm : m.isEmpty = false := by simpa [flatOk] using h
      cases p with
      | none =>
        refine ⟨List.range (sizeMax m), [], ?_, rfl, ?_⟩
        · simp [TypeInfo.accessible, hm]
        · simp [TypeInfo.size, padSize]
      | some ps =>
        refine ⟨List.range (sizeMax m), rangeFromTo (sizeMax m) (sizeMax m + ps), ?_, ?_, ?_⟩
        · simp [TypeInfo.accessible, hm]
        · simp [TypeInfo.inaccessible, hm]
        · simp only [TypeInfo.size, padSize, rangeFromTo, Nat.add_sub_cancel_left,
            List.range_eq_range']
          have h2 := List.range'_append_1 0 (sizeMax m) ps
          rw [Nat.zero_add] at h2
          rw [Nat.add_comm (sizeMax m) ps, ← h2]
  obtain ⟨a, i, ha, hi, hp⟩ := key
  exact ⟨a, i, ha, hi, hp, cover_disjoint a i _ hp⟩

/-- C3 witness: the amended theorem applied to a flat Struct with one
2-byte field followed by 2 bytes of padding. -/
theorem c3_offsets_cover_witness :
    flatOk (.struct (some "p") [.fieldE "a" 2 "short", .paddingE 2]) = true
    ∧ ∃ a i,
        TypeInfo.accessible (.struct (some "p") [.fieldE "a" 2 "short", .paddingE 2]) = some a
        ∧ TypeInfo.inaccessible (.struct (some "p") [.fieldE "a" 2 "short", .paddingE 2]) = some i
        ∧ (a ++ i).Perm
            (List.range (TypeInfo.size (.struct (some "p") [.fieldE "a" 2 "short", .paddingE 2])))
        ∧ List.Disjoint a i :=
  ⟨by decide, c3_offsets_cover _ (by decide)⟩

/-- C4: over a library whose only entry is a 4-byte scalar,
`get_next_replacements((0,1,2,3), (0,))` yields exactly one candidate: the
scalar itself, with empty remaining accessible and start offsets. -/
theorem c4_single_scalar_replacement (nm : Option String) (f : Nat) :
    TypeLib.getNextReplacements [(4, [⟨f, .tinfo nm 4⟩])] [0, 1, 2, 3] [0] =
      some [([.tinfo nm 4], [], [])] :=
  rfl

/-- C5 counterexample: `fix()` does not leave the source library's entries
unchanged.  For a library holding one Struct with field sizes 32 and 8, the
source library after the call holds the same (mutated) Struct object with
field sizes 4 and 1 and total size 5 instead of 40. -/
theorem c5_counterexample :
    (TypeLib.fix [(40, [⟨1, .struct (some "s") [.fieldE "a" 32 "int", .fieldE "b" 8 "char"]⟩])]).2 =
      [(40, [⟨1, .struct (some "s") [.fieldE "a" 4 "int", .fieldE "b" 1 "char"]⟩])]
    ∧ TypeInfo.size (.struct (some "s") [.fieldE "a" 4 "int", .fieldE "b" 1 "char"]) = 5
    ∧ TypeInfo.size (.struct (some "s") [.fieldE "a" 32 "int", .fieldE "b" 8 "char"]) = 40
    ∧ (TypeInfo.struct (some "s") [.fieldE "a" 4 "int", .fieldE "b" 1 "char"]) ≠
        .struct (some "s") [.fieldE "a" 32 "int", .fieldE "b" 8 "char"] :=
  ⟨rfl, rfl, rfl, by simp⟩

/-- C5 (amended): `fix()` returns a new library, and the source library
after the call holds every entry in its `fix_bit`-mutated form (Struct
entries have their field sizes divided and size recomputed, even for
entries dropped from the output; non-Struct entries are untouched). -/
theorem c5_fix_mutates_source (lib : TypeLib) :
    (TypeLib.fix lib).2 = TypeLib.mutatedBy lib := by
  have bucket : ∀ (es : EntryList) (acc : TypeLib) (sz : Nat),
      (TypeLib.fixBucket acc sz es).2 = es.map (fun e => (TypeLib.fixEntry sz e).2.2) := by
    intro es
    induction es with
    | nil => intro acc sz; rfl
    | cons e r ih => intro acc sz; simp [TypeLib.fixBucket, ih]
  have go : ∀ (l : TypeLib) (acc : TypeLib), (TypeLib.fixGo acc l).2 = TypeLib.mutatedBy l := by
    intro l
    induction l with
    | nil => intro acc; rfl
    | cons b r ih =>
      intro acc
      cases b with
      | mk sz es => simp [TypeLib.fixGo, TypeLib.mutatedBy, bucket, ih]
  exact go lib []

/-- C6: `fix()` on a library holding a Struct with field sizes 32 and 8
bits yields a library with that struct repaired to byte sizes 4 and 1,
total size 5, bucketed under 5; on a library holding a Struct with a
33-bit field the entry is dropped and the result is empty. -/
theorem c6_fix_eval :
    (TypeLib.fix [(40, [⟨1, .struct (some "s") [.fieldE "a" 32 "int", .fieldE "b" 8 "char"]⟩])]).1 =
      [(5, [⟨1, .struct (some "s") [.fieldE "a" 4 "int", .fieldE "b" 1 "char"]⟩])]
    ∧ TypeInfo.size (.struct (some "s") [.fieldE "a" 4 "int", .fieldE "b" 1 "char"]) = 5
    ∧ (TypeLib.fix [(33, [⟨1, .struct (some "t") [.fieldE "a" 33 "int"]⟩])]).1 = [] :=
  ⟨rfl, rfl, rfl⟩

/-- C7: `prune` on a library whose single bucket is emptied by the
threshold raises `RuntimeError` (`none`): the second loop pops the emptied
bucket while iterating `self._data.items()`.  With a threshold every entry
meets, it returns normally with frequencies unchanged. -/
theorem c7_prune_eval :
    TypeLib.prune 2 [(4, [⟨1, .tinfo (some "int") 4⟩])] = none
    ∧ TypeLib.prune 1 [(4, [⟨1, .tinfo (some "int") 4⟩])] =
        some [(4, [⟨1, .tinfo (some "int") 4⟩])] :=
  ⟨rfl, rfl⟩

/-- C8: `add_n` inserts an absent item at the given frequency and
increments a present one, but its result is `True` even when the item was
absent before the call (the source returns the constant `True`). -/
theorem c8_addn_eval :
    EntryList.addN [] (.tinfo (some "int") 4) 5 = (true, [⟨5, .tinfo (some "int") 4⟩])
    ∧ EntryList.getEntry [] (.tinfo (some "int") 4) = none
    ∧ EntryList.addN [⟨2, .tinfo (some "int") 4⟩] (.tinfo (some "int") 4) 3 =
        (true, [⟨5, .tinfo (some "int") 4⟩]) :=
  ⟨rfl, rfl, rfl⟩

/-- C9: `get_freq` raises `AttributeError` when the item is present (the
source reads the misspelled attribute `freqency`), and returns `None` only
when the item is absent. -/
theorem c9_getfreq_eval :
    EntryList.getFreq [⟨2, .tinfo (some "int") 4⟩] (.tinfo (some "int") 4) = .error ()
    ∧ EntryList.getFreq [⟨2, .tinfo (some "int") 4⟩] (.tinfo (some "long") 8) = .ok none :=
  ⟨rfl, rfl⟩

/-- C10: a memberless Union is constructible (size 0 plus any padding),
but `accessible_offsets` — and `inaccessible_offsets` when padding is
present — take the maximum of an empty sequence and raise instead of
returning an empty tuple. -/
theorem c10_memberless_union (nm : Option String) (p : Nat) :
    TypeInfo.size (.union nm [] none) = 0
    ∧ TypeInfo.size (.union nm [] (some p)) = p
    ∧ TypeInfo.accessible (.union nm [] none) = none
    ∧ TypeInfo.accessible (.union nm [] (some p)) = none
    ∧ TypeInfo.inaccessible (.union nm [] (some p)) = none
    ∧ TypeInfo.inaccessible (.union nm [] none) = some [] := by
  refine ⟨rfl, ?_, rfl, rfl, rfl, rfl⟩
  simp [TypeInfo.size, sizeMax, padSize]

end CsvNpm
